import Mathlib

/-!
Verification of the archive-tg repository (archive_handler.py, bot.py,
telegram_handler.py) against its natural-language specification.

The Python source is shallowly embedded: pure functions become Lean
functions, the network/transport layer becomes explicit oracles (lists of
outcomes) and event traces, Python exceptions become `Except`/`Option`
values, and mutagen tag objects become explicit structures.
-/

namespace ArchiveTG

/-- A byte string, one `Nat` (0..255) per byte. -/
abbrev Bytes := List Nat

/-- The four-byte PNG signature `b'\x89PNG'` = 89 50 4E 47 checked by
`telegram_handler.upload_file` (`metadata["album_art"][:4] == b'\x89PNG'`). -/
def pngSig : Bytes := [0x89, 0x50, 0x4E, 0x47]

/-- MIME sniffing performed in `telegram_handler.upload_file` for both the
FLAC and the MP3 branch: `image/png` iff the first four bytes are the PNG
signature, `image/jpeg` otherwise.  (Python's `b[:4]` on a shorter string
returns the shorter prefix, which then compares unequal; `List.take`
behaves identically.) -/
def sniffMime (b : Bytes) : String :=
  if b.take 4 = pngSig then "image/png" else "image/jpeg"

/-- Severity of a `logging` call; none of these abort execution. -/
inductive LogLevel
  | info
  | warning
  | error
deriving DecidableEq, Repr

/-- One log record emitted through the module logger. -/
structure LogMsg where
  level : LogLevel
  text : String
deriving DecidableEq, Repr

/-- Python exceptions relevant to the embedded code paths. -/
inductive PyExn
  | attributeError
  | valueError
  | typeError
  | generic
deriving DecidableEq, Repr

/-- Python string lookup `d.get(key, default)` over an association-list
environment (used for `os.environ.get`). -/
def env_get (env : List (String × String)) (key dflt : String) : String :=
  match env.lookup key with
  | some v => v
  | none => dflt

/-! Character-list implementations of the Python string primitives used
by the embedded code (kept structural so concrete instances evaluate in
the kernel). -/

/-- Python `s.strip(c)` for a single strip character. -/
def pyStripChar (c : Char) (cs : List Char) : List Char :=
  ((cs.dropWhile (· = c)).reverse.dropWhile (· = c)).reverse

/-- Python `s.strip()` (whitespace on both ends). -/
def pyStrip (cs : List Char) : List Char :=
  ((cs.dropWhile Char.isWhitespace).reverse.dropWhile Char.isWhitespace).reverse

/-- Python `s.split(sep)` for a single-character separator: splitting
the empty string yields `[""]`, adjacent separators yield empty parts. -/
def pySplit (sep : Char) : List Char → List (List Char)
  | [] => [[]]
  | c :: rest =>
    let r := pySplit sep rest
    if c = sep then [] :: r
    else
      match r with
      | [] => [[c]]
      | g :: gs => (c :: g) :: gs

/-- Python `s.startswith(pre)`. -/
def pyStartsWith (s pre : String) : Bool :=
  pre.toList.isPrefixOf s.toList

/-- Python `s.endswith(suf)`. -/
def pyEndsWith (s suf : String) : Bool :=
  suf.toList.isSuffixOf s.toList

/-- Python `s.lower()` (ASCII letters; nothing else is exercised). -/
def pyLower (s : String) : String :=
  String.mk (s.toList.map Char.toLower)

/-- Model of Python `int(s)` on a decimal string: optional surrounding
whitespace, optional sign, one or more digits.  Returns `none` when the
conversion raises `ValueError`.  (Underscore digit separators are not
modelled; no embedded call site produces them.) -/
def parseIntPy (s : String) : Option Int :=
  let t := pyStrip s.toList
  let p : Bool × List Char :=
    match t with
    | '-' :: rest => (true, rest)
    | '+' :: rest => (false, rest)
    | rest => (false, rest)
  if p.2 = [] then none
  else if p.2.all (·.isDigit) then
    let n : Nat := p.2.foldl (fun acc c => acc * 10 + (c.toNat - '0'.toNat)) 0
    some (if p.1 then -(n : Int) else (n : Int))
  else none

end ArchiveTG

namespace ArchiveTG.ArchiveOrgHandler

/-- One entry of the item metadata's `files` list, as consumed by
`get_available_formats`: the `name` and (declared) `size` fields.
(`file_info.get('size', 0)` followed by `int(...)`; the numeric value is
modelled directly as an integer.) -/
structure FileInfo where
  name : String
  size : Int
deriving DecidableEq, Repr

/-- The `format_categories` table of `get_available_formats`, in source
order (Python dicts preserve insertion order). -/
def format_categories : List (String × List String) :=
  [("FLAC", ["flac"]),
   ("MP3", ["mp3"]),
   ("WAV", ["wav"]),
   ("OGG", ["ogg", "oga"]),
   ("MP4", ["mp4", "m4v"]),
   ("MKV", ["mkv"]),
   ("AVI", ["avi"]),
   ("PDF", ["pdf"]),
   ("EPUB", ["epub"]),
   ("TXT", ["txt"]),
   ("JPG", ["jpg", "jpeg"]),
   ("PNG", ["png"]),
   ("GIF", ["gif"]),
   ("ZIP", ["zip"]),
   ("TORRENT", ["torrent"])]

/-- The metadata-file suffixes skipped by `get_available_formats`
(`file_name.endswith(('_meta.xml', '_files.xml', '_chocr.html', '_djvu.txt'))`). -/
def nonPayloadSuffixes : List String :=
  ["_meta.xml", "_files.xml", "_chocr.html", "_djvu.txt"]

/-- Whether a file name matches one of the skipped metadata suffixes. -/
def skipName (name : String) : Bool :=
  nonPayloadSuffixes.any (fun suf => pyEndsWith name suf)

/-- `file_name.split('.')[-1].lower() if '.' in file_name else ''`. -/
def extOf (name : String) : String :=
  if name.toList.contains '.' then
    pyLower (String.mk ((pySplit '.' name.toList).getLastD []))
  else ""

/-- First entry of `format_categories` whose extension list contains
`ext` (the `for ... break` scan). -/
def categoryOf (ext : String) : Option String :=
  (format_categories.find? (fun p => p.2.contains ext)).map Prod.fst

/-- The per-file decision of the `get_available_formats` loop body:
`none` when the file is skipped (empty name, metadata suffix, or size
below 1024) or matches no category; `some label` when it is appended to
the group `label`. -/
def keptLabel (f : FileInfo) : Option String :=
  if f.name = "" then none
  else if skipName f.name then none
  else if f.size < 1024 then none
  else categoryOf (extOf f.name)

/-- `formats[format_name].append(file_info)`, creating the key at the end
of the (insertion-ordered) dict when absent. -/
def addToGroups :
    List (String × List FileInfo) → String → FileInfo → List (String × List FileInfo)
  | [], l, f => [(l, [f])]
  | (k, fs) :: rest, l, f =>
    if k = l then (k, fs ++ [f]) :: rest
    else (k, fs) :: addToGroups rest l f

/-- The grouping loop of `get_available_formats` before the final sort:
an insertion-ordered association list from format label to the files
appended to it, in input order. -/
def classify (files : List FileInfo) : List (String × List FileInfo) :=
  files.foldl
    (fun gs f =>
      match keptLabel f with
      | none => gs
      | some l => addToGroups gs l f)
    []

/-- Stable descending insertion by member count: the new group is placed
after every already-placed group of greater-or-equal count.  This is the
behaviour of Python's stable `sorted(..., key=lambda x: len(x[1]),
reverse=True)`. -/
def insertByCountDesc (x : String × List FileInfo) :
    List (String × List FileInfo) → List (String × List FileInfo)
  | [] => [x]
  | y :: ys =>
    if x.2.length ≤ y.2.length then y :: insertByCountDesc x ys
    else x :: y :: ys

/-- Stable sort of the groups by descending member count. -/
def sortByCountDesc (gs : List (String × List FileInfo)) :
    List (String × List FileInfo) :=
  gs.foldl (fun acc x => insertByCountDesc x acc) []

/-- `ArchiveOrgHandler.get_available_formats`: group the payload files by
extension category, then sort the groups by descending file count
(Python's `sorted` being stable, ties keep dict insertion order). -/
def get_available_formats (files : List FileInfo) :
    List (String × List FileInfo) :=
  sortByCountDesc (classify files)

/-- The members of the group labelled `l` (concatenation of all groups
carrying that label; the grouping keeps labels unique, so this is the
single group's list or `[]`). -/
def members (l : String) : List (String × List FileInfo) → List FileInfo
  | [] => []
  | (k, fs) :: rest => if k = l then fs ++ members l rest else members l rest

/-- The group labels, in presentation order. -/
def keys (gs : List (String × List FileInfo)) : List String :=
  gs.map Prod.fst

/-- Total number of grouped entries. -/
def totalLen (gs : List (String × List FileInfo)) : Nat :=
  (gs.map (fun g => g.2.length)).sum

/-- Position of a label in the `format_categories` table (what the spec's
tie-break clause refers to). -/
def tableIdx (l : String) : Nat :=
  (format_categories.map Prod.fst).indexOf l

/-- Boolean pairwise check. -/
def pairwiseB (p : α → α → Bool) : List α → Bool
  | [] => true
  | x :: xs => xs.all (p x) && pairwiseB p xs

/-- The ordering the spec claims for `get_available_formats`: strictly
descending count, with equal counts ordered by table position. -/
def tableTieBreakOrdered (gs : List (String × List FileInfo)) : Bool :=
  pairwiseB
    (fun a b =>
      b.2.length < a.2.length ||
        (a.2.length = b.2.length && tableIdx a.1 < tableIdx b.1))
    gs

/-! ### extract_identifier -/

/-- `parsed.path.strip('/').split('/')` — like Python `split`, splitting
the empty string yields `[""]`. -/
def pathParts (path : String) : List String :=
  (pySplit '/' (pyStripChar '/' path.toList)).map String.mk

/-- The segment following the first `"details"` segment, if any:
`path_parts[idx+1]` for `idx = path_parts.index('details')` when that
index exists, `none` when `"details"` is absent or is the last segment. -/
def detailsFollower : List String → Option String
  | [] => none
  | a :: rest => if a = "details" then rest.head? else detailsFollower rest

/-- `extract_identifier` on an already-parsed URL path. -/
def extract_identifier_path (path : String) : Option String :=
  let parts := pathParts path
  match detailsFollower parts with
  | some x => some x
  | none =>
    match parts with
    | [p] => if p ≠ "" then some p else none
    | _ => none

/-- `ArchiveOrgHandler.extract_identifier`: the `urlparse` call is
modelled by an `Option String` input (`none` = parsing raised; the
enclosing `except` returns `None`). -/
def extract_identifier (parsedPath : Option String) : Option String :=
  match parsedPath with
  | none => none
  | some path => extract_identifier_path path

/-! ### format_file_size -/

/-- Banker's rounding of a rational to the nearest integer (ties to
even), as Python's float formatting uses. -/
def roundHalfEven (q : ℚ) : ℤ :=
  let f : ℤ := ⌊q⌋
  let r : ℚ := q - f
  if r < 1/2 then f
  else if 1/2 < r then f + 1
  else if f % 2 = 0 then f else f + 1

/-- Model of the f-string `f"{x:.1f}"` for the non-negative values
produced here: one decimal digit, round-half-to-even. -/
def fmt1 (q : ℚ) : String :=
  let t : ℤ := roundHalfEven (q * 10)
  toString (t / 10) ++ "." ++ toString (t % 10)

/-- The `while size_bytes >= 1024 and i < len(size_names) - 1` loop of
`ArchiveOrgHandler.format_file_size`; `fuel` is the remaining iteration
bound `len(size_names) - 1 - i`, the result is the final value and the
number of divisions performed. -/
def ffsLoop : Nat → ℚ → ℚ × Nat
  | 0, v => (v, 0)
  | fuel + 1, v =>
    if 1024 ≤ v then
      let p := ffsLoop fuel (v / 1024)
      (p.1, p.2 + 1)
    else (v, 0)

/-- `ArchiveOrgHandler.format_file_size` (archive_handler.py, lines
221-233). -/
def format_file_size (size_bytes : Nat) : String :=
  if size_bytes = 0 then "0 B"
  else
    let p := ffsLoop 3 (size_bytes : ℚ)
    fmt1 p.1 ++ " " ++ (["B", "KB", "MB", "GB"].getD p.2 "")

end ArchiveTG.ArchiveOrgHandler

namespace ArchiveTG

/-! ## Tag-container structures (mutagen objects) -/

/-- A mutagen `Picture` (FLAC/Vorbis picture block): raw image bytes,
picture type (3 = front cover), MIME string. -/
structure Picture where
  data : Bytes
  ptype : Nat
  mime : String
deriving DecidableEq, Repr

/-- A parsed FLAC file's tag state: Vorbis comments plus picture
blocks. -/
structure FlacFile where
  tags : List (String × String)
  pictures : List Picture
deriving DecidableEq, Repr

/-- ID3v2 frames constructed by the embedded code. -/
inductive Id3Frame
  | TIT2 (text : String)
  | TPE1 (text : String)
  | TALB (text : String)
  | TDRC (text : String)
  | TRCK (text : String)
  | APIC (mime : String) (ptype : Nat) (desc : String) (data : Bytes)
deriving DecidableEq, Repr

/-- The hash key under which mutagen's `ID3` stores a frame (text frames
by id, `APIC` by id plus description). -/
def frameKey : Id3Frame → String
  | .TIT2 _ => "TIT2"
  | .TPE1 _ => "TPE1"
  | .TALB _ => "TALB"
  | .TDRC _ => "TDRC"
  | .TRCK _ => "TRCK"
  | .APIC _ _ d _ => "APIC:" ++ d

/-- An ID3v2 tag: an insertion-ordered frame dictionary. -/
structure Id3Tags where
  frames : List Id3Frame
deriving DecidableEq, Repr

/-- `audio['TIT2'] = ...` / `id3.add(...)`: replace the frame with the
same hash key in place, else append. -/
def setFrame : List Id3Frame → Id3Frame → List Id3Frame
  | [], fr => [fr]
  | f :: fs, fr =>
    if frameKey f = frameKey fr then fr :: fs else f :: setFrame fs fr

/-- Look up a frame by hash key. -/
def getFrame (t : Id3Tags) (key : String) : Option Id3Frame :=
  t.frames.find? (fun f => frameKey f = key)

/-- Vorbis-comment / RIFF-INFO style `audio[key] = value`: replace in
place, else append. -/
def setComment : List (String × String) → String → String → List (String × String)
  | [], k, v => [(k, v)]
  | (k', v') :: rest, k, v =>
    if k' = k then (k, v) :: rest else (k', v') :: setComment rest k v

/-- A parsed OGG Vorbis file's tag state; the
`metadata_block_picture = [base64(picture.write())]` assignment is
modelled by storing the picture record itself (base64-of-serialised is
injective). -/
structure OggFile where
  tags : List (String × String)
  metadata_block_picture : Option Picture
deriving DecidableEq, Repr

/-- A parsed WAV file's RIFF INFO tag state (no embedded art support). -/
structure WavFile where
  tags : List (String × String)
deriving DecidableEq, Repr

/-- Outcome of `MP3(file_stream, ID3=ID3)`: a parsed tag, an
`ID3NoHeaderError` (recovered by `MP3(file_stream)` + `add_tags()`), or
any other mutagen exception. -/
inductive Mp3Parse
  | ok (t : Id3Tags)
  | noHeader
  | fail
deriving DecidableEq, Repr

/-- Oracle for the mutagen calls of one tagging invocation: the outcome
of each container's parse, and whether `save` succeeds.  `save` is
modelled as atomic (it either raises before touching the stream or
rewrites it completely). -/
structure MutagenOracle where
  mp3Parse : Mp3Parse
  flacParse : Option FlacFile
  oggParse : Option OggFile
  wavParse : Option WavFile
  saveOk : Bool
deriving DecidableEq, Repr

/-- Contents of a staged (in-memory) audio stream after a tagging step:
either the original bytes, or the original payload re-saved with the
given tag state. -/
inductive StreamContent
  | raw (b : Bytes)
  | mp3 (orig : Bytes) (t : Id3Tags)
  | flac (orig : Bytes) (f : FlacFile)
  | ogg (orig : Bytes) (f : OggFile)
  | wav (orig : Bytes) (f : WavFile)
deriving DecidableEq, Repr

end ArchiveTG

namespace ArchiveTG.TelegramChannelHandler

open ArchiveTG

/-- The `channel_id` stored by `TelegramChannelHandler.__init__`: the
module documents a string, bot.py passes `int(...)`. -/
inductive ChannelId
  | str (s : String)
  | int (k : Int)
deriving DecidableEq, Repr

/-- `self.channel_id.startswith('-100')`: defined on strings; on an
integer it raises `AttributeError` (int has no `startswith`). -/
def startswith_on (cid : ChannelId) (pre : String) : Except PyExn Bool :=
  match cid with
  | .str s => .ok (pyStartsWith s pre)
  | .int _ => .error .attributeError

/-- Transport outcome of one `client.send_file` attempt. -/
inductive SendOutcome
  | ok
  | floodWait (seconds : Nat)
  | chatWriteForbidden
  | otherError
deriving DecidableEq, Repr

/-- Externally visible actions of `upload_file`: the `get_entity`
network call, the `send_file` network call, and `asyncio.sleep`. -/
inductive NetEvent
  | getEntity
  | send
  | sleep (seconds : Nat)
deriving DecidableEq, Repr

/-- The send-attempt loop of `upload_file` once the channel-id check
and entity resolution have succeeded: each attempt issues `get_entity`
and `send_file`; on the transcript's next outcome it returns, sleeps
and retries, or fails.  Returns the boolean result and the ordered
trace of network/sleep events. -/
def upload_file_go : List SendOutcome → Bool × List NetEvent
  | [] => (false, [.getEntity])
  | .ok :: _ => (true, [.getEntity, .send])
  | .chatWriteForbidden :: _ => (false, [.getEntity, .send])
  | .otherError :: _ => (false, [.getEntity, .send])
  | .floodWait n :: rest =>
    let p := upload_file_go rest
    (p.1, .getEntity :: .send :: .sleep n :: p.2)

/-- `TelegramChannelHandler.upload_file`: the channel-id format check
and entity resolution, then the attempt loop.  A `FloodWaitError` is
handled by `asyncio.sleep(e.seconds)` followed by a recursive call to
`upload_file` with the same arguments; since the channel-id check and
`get_entity` outcome depend only on those fixed arguments, the retry is
the attempt loop `upload_file_go`, which emits each attempt's
`get_entity` and `send_file` events.  `ChatWriteForbiddenError` and any
other exception return `False`. -/
def upload_file (cid : ChannelId) (entity_ok : Bool)
    (sends : List SendOutcome) : Bool × List NetEvent :=
  match startswith_on cid "-100" with
  | .error _ => (false, [])
  | .ok false => (false, [])
  | .ok true =>
    if entity_ok then upload_file_go sends
    else (false, [.getEntity])

/-- The `metadata` dict optionally passed to `upload_file`
(keys `title`, `creator`, `album`, `album_art`). -/
structure UploadMeta where
  title : Option String
  creator : Option String
  album : Option String
  album_art : Option Bytes
deriving DecidableEq, Repr

/-- Python truthiness of `metadata.get(k)` for a string value. -/
def strTruthy : Option String → Bool
  | none => false
  | some s => s ≠ ""

/-- The FLAC metadata-embedding block of `upload_file` (lines 71-96):
given the parsed FLAC object, apply title/artist/album when truthy and
attach a front-cover `Picture` with sniffed MIME when `album_art` is
present and non-empty.  The `if audio:` guard is mutagen dict
truthiness, i.e. at least one existing tag key. -/
def upload_embed_flac (f : FlacFile) (md : UploadMeta) : FlacFile :=
  if f.tags.isEmpty then f
  else
    let f1 :=
      match md.title with
      | some t => if t ≠ "" then { f with tags := setComment f.tags "title" t } else f
      | none => f
    let f2 :=
      match md.creator with
      | some c => if c ≠ "" then { f1 with tags := setComment f1.tags "artist" c } else f1
      | none => f1
    let f3 :=
      match md.album with
      | some a => if a ≠ "" then { f2 with tags := setComment f2.tags "album" a } else f2
      | none => f2
    match md.album_art with
    | some art =>
      if art.isEmpty then f3
      else { f3 with pictures := f3.pictures ++ [⟨art, 3, sniffMime art⟩] }
    | none => f3

/-- The MP3 metadata-embedding block of `upload_file` (lines 98-133):
`ID3(temp_file)` may succeed, raise `ID3NoHeaderError` (an empty `ID3()`
is used), or raise otherwise (`id3 = None`, the original is sent).
Frames are added for truthy fields, `APIC` with sniffed MIME for a
present non-empty `album_art`; a failing `id3.save` also falls back to
the original.  Returns the tag state that was saved onto the sent copy,
or `none` when the original bytes are sent untouched. -/
def upload_embed_mp3 (parse : Mp3Parse) (saveOk : Bool) (md : UploadMeta) :
    Option Id3Tags :=
  match parse with
  | .fail => none
  | p =>
    let t0 : Id3Tags := match p with | .ok t => t | _ => ⟨[]⟩
    let fr1 :=
      match md.title with
      | some t => if t ≠ "" then setFrame t0.frames (.TIT2 t) else t0.frames
      | none => t0.frames
    let fr2 :=
      match md.creator with
      | some c => if c ≠ "" then setFrame fr1 (.TPE1 c) else fr1
      | none => fr1
    let fr3 :=
      match md.album with
      | some a => if a ≠ "" then setFrame fr2 (.TALB a) else fr2
      | none => fr2
    let fr4 :=
      match md.album_art with
      | some art =>
        if art.isEmpty then fr3
        else setFrame fr3 (.APIC (sniffMime art) 3 "Cover" art)
      | none => fr3
    if saveOk then some ⟨fr4⟩ else none

end ArchiveTG.TelegramChannelHandler

namespace ArchiveTG.ArchiveTelegramBot

open ArchiveTG

/-- Per-file fields read by `add_metadata_to_audio` from the `file_info`
dict (`.get('title')`, `.get('creator')`, `.get('track')` plus the
mandatory `name`). -/
structure TrackInfo where
  name : String
  title : Option String
  creator : Option String
  track : Option String
deriving DecidableEq, Repr

/-- Item-level fields read from `item_metadata`. -/
structure ItemMeta where
  title : Option String
  creator : Option String
  year : Option String
  date : Option String
deriving DecidableEq, Repr

/-- `os.path.splitext(name)[0]`: the name with its last
extension removed (the leading-dot special case is not exercised by the
embedded call sites). -/
def splitextBase (s : String) : String :=
  if s.toList.contains '.' then
    String.mk (List.intercalate ['.'] ((pySplit '.' s.toList).dropLast))
  else s

/-- The log entry emitted by the `except` block of
`add_metadata_to_audio` (`logger.error(f"Failed to add metadata ...")`). -/
def tagErrorLog : LogMsg := ⟨.error, "Failed to add metadata"⟩

/-- The log entry emitted on success (`logger.info(f"Metadata added ...")`). -/
def tagInfoLog : LogMsg := ⟨.info, "Metadata added"⟩

/-- `ArchiveTelegramBot.add_metadata_to_audio` (bot.py, lines 325-398).
The whole body runs inside `try/except Exception`: any mutagen parse or
save failure is caught, logged, and the stream is left at its original
bytes.  The codomain's `.error` case is therefore never produced — no
exception crosses the component boundary.  `save` is modelled as atomic
(see `MutagenOracle`). -/
def add_metadata_to_audio (orig : Bytes) (file_info : TrackInfo)
    (item_metadata : ItemMeta) (cover_bytes : Option Bytes)
    (track_num : String) (format_name : String) (m : MutagenOracle) :
    Except PyExn (StreamContent × List LogMsg) :=
  let ext := pyLower format_name
  let title := file_info.title.getD (splitextBase file_info.name)
  let artist := file_info.creator.getD (item_metadata.creator.getD "Unknown Artist")
  let album := item_metadata.title.getD "Unknown Album"
  let year := item_metadata.year.getD (item_metadata.date.getD "")
  let track := file_info.track.getD track_num
  if ext = "mp3" then
    match m.mp3Parse with
    | .fail => .ok (.raw orig, [tagErrorLog])
    | p =>
      let t0 : Id3Tags := match p with | .ok t => t | _ => ⟨[]⟩
      let fr :=
        setFrame (setFrame (setFrame (setFrame (setFrame t0.frames
          (.TIT2 title)) (.TPE1 artist)) (.TALB album)) (.TDRC year)) (.TRCK track)
      let fr' :=
        match cover_bytes with
        | some cb =>
          if cb.isEmpty then fr
          else setFrame fr (.APIC "image/jpeg" 3 "Cover" cb)
        | none => fr
      if m.saveOk then .ok (.mp3 orig ⟨fr'⟩, [tagInfoLog])
      else .ok (.raw orig, [tagErrorLog])
  else if ext = "flac" then
    match m.flacParse with
    | none => .ok (.raw orig, [tagErrorLog])
    | some f =>
      let tags :=
        setComment (setComment (setComment (setComment (setComment f.tags
          "title" title) "artist" artist) "album" album) "date" year)
          "tracknumber" track
      let pics :=
        match cover_bytes with
        | some cb =>
          if cb.isEmpty then f.pictures
          else f.pictures ++ [⟨cb, 3, "image/jpeg"⟩]
        | none => f.pictures
      if m.saveOk then .ok (.flac orig ⟨tags, pics⟩, [tagInfoLog])
      else .ok (.raw orig, [tagErrorLog])
  else if ext = "ogg" then
    match m.oggParse with
    | none => .ok (.raw orig, [tagErrorLog])
    | some f =>
      let tags :=
        setComment (setComment (setComment (setComment (setComment f.tags
          "title" title) "artist" artist) "album" album) "date" year)
          "tracknumber" track
      let pic :=
        match cover_bytes with
        | some cb =>
          if cb.isEmpty then f.metadata_block_picture
          else some ⟨cb, 3, "image/jpeg"⟩
        | none => f.metadata_block_picture
      if m.saveOk then .ok (.ogg orig ⟨tags, pic⟩, [tagInfoLog])
      else .ok (.raw orig, [tagErrorLog])
  else if ext = "wav" then
    match m.wavParse with
    | none => .ok (.raw orig, [tagErrorLog])
    | some f =>
      let tags :=
        setComment (setComment (setComment (setComment (setComment f.tags
          "INAM" title) "IART" artist) "IPRD" album) "ICRD" year)
          "IPRT" track
      if m.saveOk then .ok (.wav orig ⟨tags⟩, [tagInfoLog])
      else .ok (.raw orig, [tagErrorLog])
  else .ok (.raw orig, [tagInfoLog])

/-- Whether the tagging step of `add_metadata_to_audio` fails for the
given format (the claim's "fails while parsing or re-saving tags"). -/
def tagStepFails (format_name : String) (m : MutagenOracle) : Prop :=
  (pyLower format_name = "mp3" ∧ (m.mp3Parse = .fail ∨ m.saveOk = false))
  ∨ (pyLower format_name = "flac" ∧ (m.flacParse = none ∨ m.saveOk = false))
  ∨ (pyLower format_name = "ogg" ∧ (m.oggParse = none ∨ m.saveOk = false))
  ∨ (pyLower format_name = "wav" ∧ (m.wavParse = none ∨ m.saveOk = false))

/-- The stages of bot.py's per-track loop body (lines 254-313) that are
reached before it returns or an exception escapes to the album-level
handler. -/
inductive TrackStep
  | downloadCall
  | tagStep
  | uploadCall
deriving DecidableEq, Repr

/-- The per-track portion of `handle_callback` (bot.py, lines 254-313)
as shipped: line 262 calls `download_file_stream(file_info)` with a
single positional argument against the signature
`(identifier, file_name)` (archive_handler.py, line 132), so the call
raises `TypeError` before any download, tagging or upload code in the
loop body runs; only the album-level `except Exception` (line 319)
catches it.  The result records the steps reached and the escaping
exception. -/
def process_track (_file_info : TrackInfo) :
    List TrackStep × Except PyExn Bool :=
  ([.downloadCall], .error .typeError)

/-- The same loop body from line 267 on, started from an already staged
stream (the state the code intends the loop to reach): when the chosen
format is an audio format the tagging step runs and never raises; the
upload call at lines 294-299 then passes the keyword argument
`thumb=thumb_stream`, which `upload_file` (telegram_handler.py,
line 25) does not accept — a `TypeError` at the call site, before
`upload_file`'s body executes, so the uploader is never entered and no
Boolean result is produced. -/
def process_track_from_stream (orig : Bytes) (file_info : TrackInfo)
    (item_metadata : ItemMeta) (cover_bytes : Option Bytes)
    (track_num : String) (format_name : String) (m : MutagenOracle) :
    List TrackStep × Except PyExn Bool :=
  if format_name ∈ ["FLAC", "MP3", "WAV", "OGG"] then
    match (add_metadata_to_audio orig file_info item_metadata cover_bytes
        track_num format_name m).map Prod.fst with
    | .error e => ([.tagStep], .error e)
    | .ok _ => ([.tagStep, .uploadCall], .error .typeError)
  else ([.uploadCall], .error .typeError)

/-! ### Environment configuration (bot.py, lines 36-49) -/

/-- The module-level configuration values of bot.py. -/
structure BotConfig where
  api_id : Int
  api_hash : String
  bot_token : String
  channel_id : Int
deriving DecidableEq, Repr

/-- The module-level environment loading of bot.py:
`int(os.environ.get('TELEGRAM_API_ID', '0'))`,
`os.environ.get('TELEGRAM_API_HASH', '')`,
`os.environ.get('TELEGRAM_BOT_TOKEN', '')`,
`int(os.environ.get('TELEGRAM_CHANNEL_ID', '0'))`.
`none` models the only failure mode: a present but non-integer value
making `int(...)` raise at import time. -/
def loadConfig (env : List (String × String)) : Option BotConfig := do
  let api_id ← parseIntPy (env_get env "TELEGRAM_API_ID" "0")
  let channel_id ← parseIntPy (env_get env "TELEGRAM_CHANNEL_ID" "0")
  pure ⟨api_id,
        env_get env "TELEGRAM_API_HASH" "",
        env_get env "TELEGRAM_BOT_TOKEN" "",
        channel_id⟩

/-- "The process refuses to start": the only way bot.py's module-level
configuration code can stop the process. -/
def startRefused (env : List (String × String)) : Bool :=
  (loadConfig env).isNone

/-- The channel id exactly as `ArchiveTelegramBot.__init__` passes it to
`TelegramChannelHandler`: the integer `CHANNEL_ID`. -/
def bot_channel_id (env : List (String × String)) :
    Option TelegramChannelHandler.ChannelId :=
  (loadConfig env).map (fun c => .int c.channel_id)

/-- `ArchiveTelegramBot.format_file_size` (bot.py, lines 400-412); the
body is the same as `ArchiveOrgHandler.format_file_size`'s. -/
def ffsLoop : Nat → ℚ → ℚ × Nat
  | 0, v => (v, 0)
  | fuel + 1, v =>
    if 1024 ≤ v then
      let p := ffsLoop fuel (v / 1024)
      (p.1, p.2 + 1)
    else (v, 0)

/-- `ArchiveTelegramBot.format_file_size` (bot.py, lines 400-412). -/
def format_file_size (size_bytes : Nat) : String :=
  if size_bytes = 0 then "0 B"
  else
    let p := ffsLoop 3 (size_bytes : ℚ)
    ArchiveOrgHandler.fmt1 p.1 ++ " " ++ (["B", "KB", "MB", "GB"].getD p.2 "")

end ArchiveTG.ArchiveTelegramBot

namespace ArchiveTG

/-! ## Theorems -/

/-- The two copies of the size-formatting loop compute the same thing. -/
theorem ffsLoop_agree (fuel : Nat) (v : ℚ) :
    ArchiveTelegramBot.ffsLoop fuel v = ArchiveOrgHandler.ffsLoop fuel v := by
  induction fuel generalizing v with
  | zero => rfl
  | succ k ih =>
    simp only [ArchiveTelegramBot.ffsLoop, ArchiveOrgHandler.ffsLoop, ih]

/-- C10: `ArchiveOrgHandler.format_file_size` and
`ArchiveTelegramBot.format_file_size` are extensionally equal: for every
non-negative byte count they return the same string; both return
`"0 B"` for 0; the unit is chosen by repeated division by 1024 and caps
at GB (e.g. 2 TiB renders as `"2048.0 GB"`). -/
theorem C10_format_file_size_equiv :
    (∀ n : Nat,
      ArchiveOrgHandler.format_file_size n = ArchiveTelegramBot.format_file_size n)
    ∧ ArchiveOrgHandler.format_file_size 0 = "0 B"
    ∧ ArchiveTelegramBot.format_file_size 0 = "0 B"
    ∧ ArchiveOrgHandler.format_file_size (2 * 1024 ^ 4) = "2048.0 GB" := by
  refine ⟨fun n => ?_, rfl, rfl, ?_⟩
  · unfold ArchiveOrgHandler.format_file_size ArchiveTelegramBot.format_file_size
    rw [ffsLoop_agree]
  · norm_num [ArchiveOrgHandler.format_file_size, ArchiveOrgHandler.ffsLoop,
      ArchiveOrgHandler.fmt1, ArchiveOrgHandler.roundHalfEven]
    rfl

/-- C9 counterexample: with every required variable absent from the
environment, bot.py's module-level configuration loading succeeds with
the defaults `0` / `""` / `""` / `0` — the process does not refuse to
start. -/
theorem C9_counterexample :
    ArchiveTelegramBot.startRefused [] = false
    ∧ ArchiveTelegramBot.loadConfig [] = some ⟨0, "", "", 0⟩ := by
  exact ⟨by decide, by decide⟩

/-- A successful configuration load is determined field-by-field by the
environment lookups. -/
theorem loadConfig_fields (env : List (String × String))
    (c : ArchiveTelegramBot.BotConfig)
    (hc : ArchiveTelegramBot.loadConfig env = some c) :
    parseIntPy (env_get env "TELEGRAM_API_ID" "0") = some c.api_id
    ∧ c.api_hash = env_get env "TELEGRAM_API_HASH" ""
    ∧ c.bot_token = env_get env "TELEGRAM_BOT_TOKEN" ""
    ∧ parseIntPy (env_get env "TELEGRAM_CHANNEL_ID" "0")
      = some c.channel_id := by
  unfold ArchiveTelegramBot.loadConfig at hc
  cases h1 : parseIntPy (env_get env "TELEGRAM_API_ID" "0") with
  | none => rw [h1] at hc; simp at hc
  | some a =>
    cases h2 : parseIntPy (env_get env "TELEGRAM_CHANNEL_ID" "0") with
    | none => rw [h1, h2] at hc; simp at hc
    | some b =>
      rw [h1, h2] at hc
      have he : (⟨a, env_get env "TELEGRAM_API_HASH" "",
          env_get env "TELEGRAM_BOT_TOKEN" "", b⟩
            : ArchiveTelegramBot.BotConfig) = c :=
        Option.some.inj hc
      rw [← he]
      exact ⟨rfl, rfl, rfl, rfl⟩

/-- C9 (amended): configuration loading refuses to start exactly when a
*present* integer variable fails `int(...)` conversion — never merely
because a value is absent — and in any environment (mixed absence
included) each absent variable is replaced by its default: `0` for
`TELEGRAM_API_ID` and `TELEGRAM_CHANNEL_ID`, `""` for
`TELEGRAM_API_HASH` and `TELEGRAM_BOT_TOKEN`. -/
theorem C9_absent_values_defaulted :
    (∀ env : List (String × String),
      ArchiveTelegramBot.startRefused env = true
        ↔ ((∃ s, env.lookup "TELEGRAM_API_ID" = some s ∧ parseIntPy s = none)
          ∨ (∃ s, env.lookup "TELEGRAM_CHANNEL_ID" = some s
              ∧ parseIntPy s = none)))
    ∧ (∀ (env : List (String × String)) (c : ArchiveTelegramBot.BotConfig),
      ArchiveTelegramBot.loadConfig env = some c →
      (env.lookup "TELEGRAM_API_ID" = none → c.api_id = 0)
      ∧ (env.lookup "TELEGRAM_API_HASH" = none → c.api_hash = "")
      ∧ (env.lookup "TELEGRAM_BOT_TOKEN" = none → c.bot_token = "")
      ∧ (env.lookup "TELEGRAM_CHANNEL_ID" = none → c.channel_id = 0)) := by
  have hparse : ∀ (env : List (String × String)) (k : String),
      parseIntPy (env_get env k "0") = none
        ↔ ∃ s, env.lookup k = some s ∧ parseIntPy s = none := by
    intro env k
    unfold env_get
    cases h : env.lookup k with
    | none => simp [h, show parseIntPy "0" = some 0 from by decide]
    | some s => simp [h]
  constructor
  · intro env
    constructor
    · intro href
      have hnone : ArchiveTelegramBot.loadConfig env = none :=
        Option.isNone_iff_eq_none.mp href
      cases h1 : parseIntPy (env_get env "TELEGRAM_API_ID" "0") with
      | none => exact Or.inl ((hparse env _).mp h1)
      | some a =>
        cases h2 : parseIntPy (env_get env "TELEGRAM_CHANNEL_ID" "0") with
        | none => exact Or.inr ((hparse env _).mp h2)
        | some b =>
          unfold ArchiveTelegramBot.loadConfig at hnone
          rw [h1, h2] at hnone
          simp at hnone
    · rintro (h | h)
      · have h1 := (hparse env "TELEGRAM_API_ID").mpr h
        simp [ArchiveTelegramBot.startRefused,
          ArchiveTelegramBot.loadConfig, h1]
      · have h2 := (hparse env "TELEGRAM_CHANNEL_ID").mpr h
        cases h1 : parseIntPy (env_get env "TELEGRAM_API_ID" "0") <;>
          simp [ArchiveTelegramBot.startRefused,
            ArchiveTelegramBot.loadConfig, h1, h2]
  · intro env c hc
    obtain ⟨h1, hh, ht, h2⟩ := loadConfig_fields env c hc
    refine ⟨?_, ?_, ?_, ?_⟩
    · intro habs
      have e : env_get env "TELEGRAM_API_ID" "0" = "0" := by
        simp [env_get, habs]
      rw [e, show parseIntPy "0" = some 0 from by decide] at h1
      exact (Option.some.inj h1).symm
    · intro habs
      have e : env_get env "TELEGRAM_API_HASH" "" = "" := by
        simp [env_get, habs]
      rw [e] at hh
      exact hh
    · intro habs
      have e : env_get env "TELEGRAM_BOT_TOKEN" "" = "" := by
        simp [env_get, habs]
      rw [e] at ht
      exact ht
    · intro habs
      have e : env_get env "TELEGRAM_CHANNEL_ID" "0" = "0" := by
        simp [env_get, habs]
      rw [e, show parseIntPy "0" = some 0 from by decide] at h2
      exact (Option.some.inj h2).symm

/-- C9 witness: a mixed environment — hash and channel id present, api
id and token absent — loads with the absent values defaulted and does
not refuse to start. -/
theorem C9_witness :
    ArchiveTelegramBot.startRefused
        [("TELEGRAM_API_HASH", "h"),
         ("TELEGRAM_CHANNEL_ID", "-1003031099376")] = false
    ∧ ArchiveTelegramBot.loadConfig
        [("TELEGRAM_API_HASH", "h"),
         ("TELEGRAM_CHANNEL_ID", "-1003031099376")]
      = some ⟨0, "h", "", -1003031099376⟩
    ∧ (⟨0, "h", "", -1003031099376⟩
        : ArchiveTelegramBot.BotConfig).api_id = 0
    ∧ (⟨0, "h", "", -1003031099376⟩
        : ArchiveTelegramBot.BotConfig).bot_token = "" := by
  have hload : ArchiveTelegramBot.loadConfig
      [("TELEGRAM_API_HASH", "h"),
       ("TELEGRAM_CHANNEL_ID", "-1003031099376")]
      = some ⟨0, "h", "", -1003031099376⟩ := by decide
  have h2 := C9_absent_values_defaulted.2
    [("TELEGRAM_API_HASH", "h"), ("TELEGRAM_CHANNEL_ID", "-1003031099376")]
    ⟨0, "h", "", -1003031099376⟩ hload
  have hnot : ¬ ((∃ s, List.lookup "TELEGRAM_API_ID"
        [("TELEGRAM_API_HASH", "h"),
         ("TELEGRAM_CHANNEL_ID", "-1003031099376")] = some s
        ∧ parseIntPy s = none)
      ∨ (∃ s, List.lookup "TELEGRAM_CHANNEL_ID"
        [("TELEGRAM_API_HASH", "h"),
         ("TELEGRAM_CHANNEL_ID", "-1003031099376")] = some s
        ∧ parseIntPy s = none)) := by
    rintro (⟨s, hs, hp⟩ | ⟨s, hs, hp⟩)
    · rw [show List.lookup "TELEGRAM_API_ID"
          [("TELEGRAM_API_HASH", "h"),
           ("TELEGRAM_CHANNEL_ID", "-1003031099376")]
          = (none : Option String) from by decide] at hs
      exact Option.noConfusion hs
    · rw [show List.lookup "TELEGRAM_CHANNEL_ID"
          [("TELEGRAM_API_HASH", "h"),
           ("TELEGRAM_CHANNEL_ID", "-1003031099376")]
          = some "-1003031099376" from by decide] at hs
      obtain rfl := Option.some.inj hs
      exact absurd hp (by decide)
  cases hb : ArchiveTelegramBot.startRefused
      [("TELEGRAM_API_HASH", "h"),
       ("TELEGRAM_CHANNEL_ID", "-1003031099376")] with
  | false => exact ⟨rfl, hload, h2.1 (by decide), h2.2.2.1 (by decide)⟩
  | true =>
    exact absurd ((C9_absent_values_defaulted.1 _).mp hb) hnot

/-- C3: for a channel id constructed exactly as bot.py does
(`int(os.environ.get('TELEGRAM_CHANNEL_ID', '0'))` passed to
`TelegramChannelHandler`), `upload_file` returns `False` and performs no
network action at all: `startswith` on the integer raises
`AttributeError`, which the enclosing `except` turns into `return
False` before any send is attempted. -/
theorem C3_int_channel_uploads_nothing (env : List (String × String))
    (cid : TelegramChannelHandler.ChannelId)
    (h : ArchiveTelegramBot.bot_channel_id env = some cid)
    (entity_ok : Bool) (sends : List TelegramChannelHandler.SendOutcome) :
    (∃ k : Int, cid = .int k
      ∧ TelegramChannelHandler.startswith_on cid "-100" = .error .attributeError)
    ∧ TelegramChannelHandler.upload_file cid entity_ok sends = (false, []) := by
  obtain ⟨c, hc⟩ : ∃ c, cid = TelegramChannelHandler.ChannelId.int c := by
    unfold ArchiveTelegramBot.bot_channel_id at h
    cases hl : ArchiveTelegramBot.loadConfig env with
    | none => rw [hl] at h; simp at h
    | some cfg =>
      rw [hl] at h
      simp only [Option.map_some', Option.some.injEq] at h
      exact ⟨cfg.channel_id, h.symm⟩
  subst hc
  exact ⟨⟨c, rfl, rfl⟩, rfl⟩

/-- C3 witness: the handler as constructed from a fully "correct"
environment value still uploads nothing. -/
theorem C3_witness :
    TelegramChannelHandler.upload_file
      (.int (-1003031099376)) true [.ok] = (false, []) :=
  (C3_int_channel_uploads_nothing
    [("TELEGRAM_CHANNEL_ID", "-1003031099376")]
    (.int (-1003031099376)) (by decide) true [.ok]).2

/-- C2: on a `FloodWaitError` carrying `n` seconds, `upload_file` sleeps
`n` seconds before any further network call (the trace after the failed
send is exactly `sleep n` followed by the retry's own calls) and retries
the same call once; if the retried send succeeds, the publish call
returns success. -/
theorem C2_floodwait_retry (s : String) (h : pyStartsWith s "-100" = true)
    (n : Nat) (rest : List TelegramChannelHandler.SendOutcome) :
    (TelegramChannelHandler.upload_file (.str s) true
        (.floodWait n :: rest)
      = ((TelegramChannelHandler.upload_file (.str s) true rest).1,
         .getEntity :: .send :: .sleep n ::
           (TelegramChannelHandler.upload_file (.str s) true rest).2))
    ∧ (∀ rest', rest = .ok :: rest' →
        TelegramChannelHandler.upload_file (.str s) true
            (.floodWait n :: rest)
          = (true, [.getEntity, .send, .sleep n, .getEntity, .send])) := by
  have hgo : ∀ l, TelegramChannelHandler.upload_file (.str s) true l
      = TelegramChannelHandler.upload_file_go l := by
    intro l
    simp only [TelegramChannelHandler.upload_file,
      TelegramChannelHandler.startswith_on, h, if_true]
  constructor
  · rw [hgo, hgo]
    rfl
  · intro rest' hr
    subst hr
    rw [hgo]
    rfl

/-- C2 witness: a concrete flood-wait of 7 seconds followed by a
successful retry. -/
theorem C2_witness :
    TelegramChannelHandler.upload_file (.str "-1003031099376") true
        [.floodWait 7, .ok]
      = (true, [.getEntity, .send, .sleep 7, .getEntity, .send]) :=
  (C2_floodwait_retry "-1003031099376" (by decide) 7 [.ok]).2 []
    rfl

/-- C1 (code bug): the tagging step's fallback itself holds — any parse
or re-save failure is caught inside `add_metadata_to_audio`, the stream
keeps the original bytes and the only report is a log entry — but the
claim's "processing of that file continues to the upload step" is
broken by the surrounding loop: as shipped, `download_file_stream` is
called with the wrong arity and raises `TypeError` before tagging ever
runs, and even from a staged stream the upload call passes the
unsupported `thumb=` keyword and raises `TypeError` at the call site,
so `upload_file` is never entered and no upload result is produced. -/
theorem C1_tag_fallback_and_broken_pipeline (orig : Bytes)
    (fi : ArchiveTelegramBot.TrackInfo) (im : ArchiveTelegramBot.ItemMeta)
    (cover : Option Bytes) (tn : String) (fmt : String) (m : MutagenOracle)
    (hfmt : fmt ∈ ["FLAC", "MP3", "WAV", "OGG"])
    (hfail : ArchiveTelegramBot.tagStepFails fmt m) :
    ArchiveTelegramBot.add_metadata_to_audio orig fi im cover tn fmt m
      = .ok (.raw orig, [ArchiveTelegramBot.tagErrorLog])
    ∧ ArchiveTelegramBot.process_track fi
      = ([.downloadCall], .error .typeError)
    ∧ ArchiveTelegramBot.process_track_from_stream orig fi im cover tn fmt m
      = ([.tagStep, .uploadCall], .error .typeError) := by
  have pfl : pyLower "FLAC" = "flac" := by decide
  have pmp : pyLower "MP3" = "mp3" := by decide
  have pwv : pyLower "WAV" = "wav" := by decide
  have pog : pyLower "OGG" = "ogg" := by decide
  have hmain : ArchiveTelegramBot.add_metadata_to_audio orig fi im cover tn fmt m
      = .ok (.raw orig, [ArchiveTelegramBot.tagErrorLog]) := by
    fin_cases hfmt <;>
      rcases hfail with ⟨hx, hf⟩ | ⟨hx, hf⟩ | ⟨hx, hf⟩ | ⟨hx, hf⟩ <;>
      simp only [pfl, pmp, pwv, pog] at hx <;>
      first
        | exact absurd hx (by decide)
        | (rcases hf with hf | hf <;>
            cases h1 : m.mp3Parse <;> cases h2 : m.flacParse <;>
            cases h3 : m.oggParse <;> cases h4 : m.wavParse <;>
            simp_all [ArchiveTelegramBot.add_metadata_to_audio,
              pfl, pmp, pwv, pog])
  refine ⟨hmain, rfl, ?_⟩
  simp [ArchiveTelegramBot.process_track_from_stream, hfmt, hmain,
    Except.map]

/-- C1 witness: a FLAC whose parse fails; the original bytes survive the
tagging step, but the shipped loop raises `TypeError` before tagging
(download call) and at the upload call site. -/
theorem C1_witness :
    ArchiveTelegramBot.add_metadata_to_audio [9, 9]
        ⟨"t.flac", none, none, none⟩ ⟨none, none, none, none⟩
        none "1" "FLAC" ⟨.noHeader, none, none, none, true⟩
      = .ok (.raw [9, 9], [ArchiveTelegramBot.tagErrorLog])
    ∧ ArchiveTelegramBot.process_track ⟨"t.flac", none, none, none⟩
      = ([.downloadCall], .error .typeError)
    ∧ ArchiveTelegramBot.process_track_from_stream [9, 9]
        ⟨"t.flac", none, none, none⟩ ⟨none, none, none, none⟩
        none "1" "FLAC" ⟨.noHeader, none, none, none, true⟩
      = ([.tagStep, .uploadCall], .error .typeError) := by
  have h := C1_tag_fallback_and_broken_pipeline [9, 9]
    ⟨"t.flac", none, none, none⟩ ⟨none, none, none, none⟩
    none "1" "FLAC" ⟨.noHeader, none, none, none, true⟩
    (by decide) (Or.inr (Or.inl ⟨by decide, Or.inl rfl⟩))
  exact h

/-- `find?` after a key-replacing insert retrieves the inserted frame. -/
theorem find_setFrame (l : List Id3Frame) (fr : Id3Frame) :
    (setFrame l fr).find? (fun f => frameKey f = frameKey fr) = some fr := by
  induction l with
  | nil => simp [setFrame]
  | cons f fs ih =>
    by_cases hk : frameKey f = frameKey fr
    · simp [setFrame, hk]
    · simp [setFrame, hk, List.find?, ih]

/-- C4 counterexample: `bot.py`'s `add_metadata_to_audio` embeds a
PNG-signature cover into a FLAC with the hard-coded MIME `image/jpeg`,
not the sniffed `image/png` — the claim's "for every cover asset
supplied to tag embedding, the MIME type is obtained by sniffing" fails
on this path. -/
theorem C4_counterexample :
    ArchiveTelegramBot.add_metadata_to_audio [0, 1]
        ⟨"t.flac", some "T", some "A", some "1"⟩
        ⟨some "Alb", some "A", some "2020", none⟩
        (some [0x89, 0x50, 0x4E, 0x47]) "1" "FLAC"
        ⟨.noHeader, some ⟨[], []⟩, none, none, true⟩
      = .ok (.flac [0, 1]
          ⟨[("title", "T"), ("artist", "A"), ("album", "Alb"),
            ("date", "2020"), ("tracknumber", "1")],
           [⟨[0x89, 0x50, 0x4E, 0x47], 3, "image/jpeg"⟩]⟩,
          [ArchiveTelegramBot.tagInfoLog])
    ∧ sniffMime [0x89, 0x50, 0x4E, 0x47] = "image/png"
    ∧ ("image/jpeg" : String) ≠ "image/png" := by
  refine ⟨rfl, by decide, by decide⟩

/-- C4 (amended): in the `upload_file` embedding paths
(telegram_handler.py) the front-cover picture's MIME type is sniffed
from the asset's first bytes — `image/png` exactly on the PNG signature
`89 50 4E 47`, `image/jpeg` otherwise — and the embedded picture's
bytes are exactly the supplied cover's; in every `add_metadata_to_audio`
cover path (bot.py: MP3 `APIC` at line 348, FLAC picture at line 362,
OGG `metadata_block_picture` at line 377) the embedded picture's bytes
are likewise preserved but the MIME type is the constant `image/jpeg`
regardless of signature. -/
theorem C4_cover_mime :
    (∀ (f : FlacFile) (md : TelegramChannelHandler.UploadMeta) (art : Bytes),
      md.album_art = some art → art ≠ [] → f.tags ≠ [] →
      (TelegramChannelHandler.upload_embed_flac f md).pictures.getLast?
        = some ⟨art, 3, sniffMime art⟩)
    ∧ (∀ (t : Id3Tags) (md : TelegramChannelHandler.UploadMeta) (art : Bytes),
      md.album_art = some art → art ≠ [] →
      ∃ t', TelegramChannelHandler.upload_embed_mp3 (.ok t) true md = some t'
        ∧ getFrame t' "APIC:Cover" = some (.APIC (sniffMime art) 3 "Cover" art))
    ∧ (∀ b : Bytes,
      (sniffMime b = "image/png" ↔ b.take 4 = pngSig)
      ∧ (sniffMime b = "image/png" ∨ sniffMime b = "image/jpeg"))
    ∧ (∀ (orig : Bytes) (fi : ArchiveTelegramBot.TrackInfo)
        (im : ArchiveTelegramBot.ItemMeta) (cb : Bytes) (tn : String)
        (m : MutagenOracle) (f : FlacFile),
      cb ≠ [] → m.saveOk = true → m.flacParse = some f →
      ∃ f', ArchiveTelegramBot.add_metadata_to_audio orig fi im (some cb) tn
          "FLAC" m
        = .ok (.flac orig f', [ArchiveTelegramBot.tagInfoLog])
        ∧ f'.pictures.getLast? = some ⟨cb, 3, "image/jpeg"⟩)
    ∧ (∀ (orig : Bytes) (fi : ArchiveTelegramBot.TrackInfo)
        (im : ArchiveTelegramBot.ItemMeta) (cb : Bytes) (tn : String)
        (m : MutagenOracle),
      cb ≠ [] → m.saveOk = true → m.mp3Parse ≠ .fail →
      ∃ t', ArchiveTelegramBot.add_metadata_to_audio orig fi im (some cb) tn
          "MP3" m
        = .ok (.mp3 orig t', [ArchiveTelegramBot.tagInfoLog])
        ∧ getFrame t' "APIC:Cover"
          = some (.APIC "image/jpeg" 3 "Cover" cb))
    ∧ (∀ (orig : Bytes) (fi : ArchiveTelegramBot.TrackInfo)
        (im : ArchiveTelegramBot.ItemMeta) (cb : Bytes) (tn : String)
        (m : MutagenOracle) (f : OggFile),
      cb ≠ [] → m.saveOk = true → m.oggParse = some f →
      ∃ f', ArchiveTelegramBot.add_metadata_to_audio orig fi im (some cb) tn
          "OGG" m
        = .ok (.ogg orig f', [ArchiveTelegramBot.tagInfoLog])
        ∧ f'.metadata_block_picture = some ⟨cb, 3, "image/jpeg"⟩) := by
  refine ⟨?_, ?_, ?_, ?_, ?_, ?_⟩
  · intro f md art hart hne htags
    have hemp : f.tags.isEmpty = false := by
      cases htg : f.tags with
      | nil => exact absurd htg htags
      | cons a l => rfl
    have harte : art.isEmpty = false := by
      cases art with
      | nil => exact absurd rfl hne
      | cons a l => rfl
    simp only [TelegramChannelHandler.upload_embed_flac, hemp,
      Bool.false_eq_true, if_false, hart, harte]
    exact List.getLast?_concat _
  · intro t md art hart hne
    have harte : art.isEmpty = false := by
      cases art with
      | nil => exact absurd rfl hne
      | cons a l => rfl
    refine ⟨_, rfl, ?_⟩
    simp only [TelegramChannelHandler.upload_embed_mp3, getFrame, hart,
      harte, Bool.false_eq_true, if_false]
    have hk : frameKey (Id3Frame.APIC (sniffMime art) 3 "Cover" art)
        = "APIC:Cover" := rfl
    rw [← hk]
    exact find_setFrame _ _
  · intro b
    constructor
    · unfold sniffMime
      split_ifs with hb
      · simp [hb]
      · simp [hb]
    · unfold sniffMime
      split_ifs <;> simp
  · intro orig fi im cb tn m f hne hsave hparse
    have hcbe : cb.isEmpty = false := by
      cases cb with
      | nil => exact absurd rfl hne
      | cons a l => rfl
    refine ⟨⟨setComment (setComment (setComment (setComment (setComment f.tags
        "title" (fi.title.getD (ArchiveTelegramBot.splitextBase fi.name)))
        "artist" (fi.creator.getD (im.creator.getD "Unknown Artist")))
        "album" (im.title.getD "Unknown Album"))
        "date" (im.year.getD (im.date.getD "")))
        "tracknumber" (fi.track.getD tn),
        f.pictures ++ [⟨cb, 3, "image/jpeg"⟩]⟩, ?_, ?_⟩
    · simp [ArchiveTelegramBot.add_metadata_to_audio, hparse, hsave, hcbe,
        (by decide : pyLower "FLAC" = "flac")]
    · exact List.getLast?_concat _
  · intro orig fi im cb tn m hne hsave hp
    have hcbe : cb.isEmpty = false := by
      cases cb with
      | nil => exact absurd rfl hne
      | cons a l => rfl
    cases hparse : m.mp3Parse with
    | fail => exact absurd hparse hp
    | ok t =>
      refine ⟨⟨setFrame (setFrame (setFrame (setFrame (setFrame (setFrame
          t.frames
          (.TIT2 (fi.title.getD (ArchiveTelegramBot.splitextBase fi.name))))
          (.TPE1 (fi.creator.getD (im.creator.getD "Unknown Artist"))))
          (.TALB (im.title.getD "Unknown Album")))
          (.TDRC (im.year.getD (im.date.getD ""))))
          (.TRCK (fi.track.getD tn)))
          (.APIC "image/jpeg" 3 "Cover" cb)⟩, ?_, ?_⟩
      · simp [ArchiveTelegramBot.add_metadata_to_audio, hparse, hsave, hcbe,
          (by decide : pyLower "MP3" = "mp3")]
      · simp only [getFrame]
        have hk : frameKey (Id3Frame.APIC "image/jpeg" 3 "Cover" cb)
            = "APIC:Cover" := rfl
        rw [← hk]
        exact find_setFrame _ _
    | noHeader =>
      refine ⟨⟨setFrame (setFrame (setFrame (setFrame (setFrame (setFrame
          ([] : List Id3Frame)
          (.TIT2 (fi.title.getD (ArchiveTelegramBot.splitextBase fi.name))))
          (.TPE1 (fi.creator.getD (im.creator.getD "Unknown Artist"))))
          (.TALB (im.title.getD "Unknown Album")))
          (.TDRC (im.year.getD (im.date.getD ""))))
          (.TRCK (fi.track.getD tn)))
          (.APIC "image/jpeg" 3 "Cover" cb)⟩, ?_, ?_⟩
      · simp [ArchiveTelegramBot.add_metadata_to_audio, hparse, hsave, hcbe,
          (by decide : pyLower "MP3" = "mp3")]
      · simp only [getFrame]
        have hk : frameKey (Id3Frame.APIC "image/jpeg" 3 "Cover" cb)
            = "APIC:Cover" := rfl
        rw [← hk]
        exact find_setFrame _ _
  · intro orig fi im cb tn m f hne hsave hparse
    have hcbe : cb.isEmpty = false := by
      cases cb with
      | nil => exact absurd rfl hne
      | cons a l => rfl
    refine ⟨⟨setComment (setComment (setComment (setComment (setComment f.tags
        "title" (fi.title.getD (ArchiveTelegramBot.splitextBase fi.name)))
        "artist" (fi.creator.getD (im.creator.getD "Unknown Artist")))
        "album" (im.title.getD "Unknown Album"))
        "date" (im.year.getD (im.date.getD "")))
        "tracknumber" (fi.track.getD tn),
        some ⟨cb, 3, "image/jpeg"⟩⟩, ?_, rfl⟩
    · simp [ArchiveTelegramBot.add_metadata_to_audio, hparse, hsave, hcbe,
        (by decide : pyLower "OGG" = "ogg")]

end ArchiveTG

namespace ArchiveTG.ArchiveOrgHandler

/-- A label that heads no group has no members. -/
theorem members_eq_nil_of_not_mem_keys {l : String}
    {gs : List (String × List FileInfo)} (h : l ∉ keys gs) :
    members l gs = [] := by
  induction gs with
  | nil => rfl
  | cons g rest ih =>
    obtain ⟨k, fs⟩ := g
    have hk : k ≠ l := by
      intro he
      exact h (by simp [keys, he])
    have hrest : l ∉ keys rest := by
      intro hm
      exact h (by simp [keys] at hm ⊢; exact Or.inr hm)
    simp [members, hk, ih hrest]

/-- Membership in the key list after appending a file to its group. -/
theorem mem_keys_addToGroups (gs : List (String × List FileInfo))
    (l : String) (f : FileInfo) (x : String) :
    x ∈ keys (addToGroups gs l f) ↔ x ∈ keys gs ∨ x = l := by
  induction gs with
  | nil => simp [addToGroups, keys]
  | cons g rest ih =>
    obtain ⟨k, fs⟩ := g
    by_cases hk : k = l
    · simp_all [addToGroups, keys]
    · simp_all [addToGroups, keys]
      tauto

/-- Appending a file to its group keeps the key list duplicate-free. -/
theorem nodup_keys_addToGroups (gs : List (String × List FileInfo))
    (l : String) (f : FileInfo) (h : (keys gs).Nodup) :
    (keys (addToGroups gs l f)).Nodup := by
  induction gs with
  | nil => simp [addToGroups, keys]
  | cons g rest ih =>
    obtain ⟨k, fs⟩ := g
    simp only [keys, List.map_cons, List.nodup_cons] at h
    by_cases hk : k = l
    · simp_all [addToGroups, keys]
    · have hih := ih h.2
      have hmem := mem_keys_addToGroups rest l f k
      simp_all [addToGroups, keys]

/-- Appending a file to its group adds exactly one grouped entry. -/
theorem totalLen_addToGroups (gs : List (String × List FileInfo))
    (l : String) (f : FileInfo) :
    totalLen (addToGroups gs l f) = totalLen gs + 1 := by
  induction gs with
  | nil => simp [addToGroups, totalLen]
  | cons g rest ih =>
    obtain ⟨k, fs⟩ := g
    by_cases hk : k = l
    · subst hk
      simp [addToGroups, totalLen]
      omega
    · simp only [addToGroups, if_neg hk, totalLen, List.map_cons,
        List.sum_cons] at ih ⊢
      omega

/-- The members of label `l` after appending `f` to group `l'` (the key
list must be duplicate-free, as `classify` guarantees). -/
theorem members_addToGroups (gs : List (String × List FileInfo))
    (l l' : String) (f : FileInfo) (hnd : (keys gs).Nodup) :
    members l (addToGroups gs l' f)
      = if l' = l then members l gs ++ [f] else members l gs := by
  induction gs with
  | nil =>
    by_cases h : l' = l <;> simp [addToGroups, members, h]
  | cons g rest ih =>
    obtain ⟨k, fs⟩ := g
    simp only [keys, List.map_cons, List.nodup_cons] at hnd
    have ihr := ih hnd.2
    by_cases hl : k = l
    · have hnotin : l ∉ keys rest := hl ▸ hnd.1
      have hnil : members l rest = [] :=
        members_eq_nil_of_not_mem_keys hnotin
      by_cases hk : k = l' <;> by_cases h : l' = l <;>
        simp_all [addToGroups, members, List.append_assoc]
    · by_cases hk : k = l' <;> by_cases h : l' = l <;>
        simp_all [addToGroups, members, List.append_assoc]

/-- Key-list duplicate-freedom is an invariant of the grouping fold. -/
theorem nodup_keys_classify_aux (files : List FileInfo)
    (acc : List (String × List FileInfo)) (h : (keys acc).Nodup) :
    (keys (files.foldl
      (fun gs f =>
        match keptLabel f with
        | none => gs
        | some l => addToGroups gs l f) acc)).Nodup := by
  induction files generalizing acc with
  | nil => exact h
  | cons f fs ih =>
    simp only [List.foldl_cons]
    cases hf : keptLabel f with
    | none => exact ih acc h
    | some l => exact ih _ (nodup_keys_addToGroups acc l f h)

/-- The key list of `classify` is duplicate-free: every file appears in
at most one group. -/
theorem nodup_keys_classify (files : List FileInfo) :
    (keys (classify files)).Nodup :=
  nodup_keys_classify_aux files [] (by simp [keys])

/-- Generalized correspondence between grouping and filtering. -/
theorem members_classify_aux (files : List FileInfo)
    (acc : List (String × List FileInfo)) (hnd : (keys acc).Nodup)
    (l : String) :
    members l (files.foldl
      (fun gs f =>
        match keptLabel f with
        | none => gs
        | some l => addToGroups gs l f) acc)
      = members l acc
        ++ files.filter (fun f => keptLabel f = some l) := by
  induction files generalizing acc with
  | nil => simp
  | cons f fs ih =>
    simp only [List.foldl_cons]
    cases hf : keptLabel f with
    | none =>
      rw [ih acc hnd]
      simp [List.filter_cons, hf]
    | some l'' =>
      rw [ih _ (nodup_keys_addToGroups acc l'' f hnd)]
      rw [members_addToGroups acc l l'' f hnd]
      by_cases he : l'' = l
      · subst he
        simp [List.filter_cons, hf]
      · have : (keptLabel f = some l) = False := by
          simp [hf, he]
        simp [List.filter_cons, hf, he]

/-- The group of label `l` produced by `classify` is exactly the
in-order sublist of kept files mapping to `l`. -/
theorem members_classify (files : List FileInfo) (l : String) :
    members l (classify files)
      = files.filter (fun f => keptLabel f = some l) := by
  have h := members_classify_aux files [] (by simp [keys]) l
  simpa [classify, members] using h

/-- A label heads a group iff some file of the input is kept under it. -/
theorem mem_keys_classify_aux (files : List FileInfo)
    (acc : List (String × List FileInfo)) (x : String) :
    x ∈ keys (files.foldl
      (fun gs f =>
        match keptLabel f with
        | none => gs
        | some l => addToGroups gs l f) acc)
      ↔ x ∈ keys acc ∨ ∃ f ∈ files, keptLabel f = some x := by
  induction files generalizing acc with
  | nil => simp
  | cons f fs ih =>
    simp only [List.foldl_cons]
    cases hf : keptLabel f with
    | none =>
      rw [ih acc]
      simp only [List.mem_cons]
      constructor
      · rintro (h | ⟨g, hg, hk⟩)
        · exact Or.inl h
        · exact Or.inr ⟨g, Or.inr hg, hk⟩
      · rintro (h | ⟨g, hg | hg, hk⟩)
        · exact Or.inl h
        · subst hg; rw [hf] at hk; cases hk
        · exact Or.inr ⟨g, hg, hk⟩
    | some l'' =>
      rw [ih _]
      rw [mem_keys_addToGroups acc l'' f x]
      simp only [List.mem_cons]
      constructor
      · rintro ((h | h) | ⟨g, hg, hk⟩)
        · exact Or.inl h
        · exact Or.inr ⟨f, Or.inl rfl, by rw [hf, h]⟩
        · exact Or.inr ⟨g, Or.inr hg, hk⟩
      · rintro (h | ⟨g, hg | hg, hk⟩)
        · exact Or.inl (Or.inl h)
        · subst hg
          rw [hf] at hk
          exact Or.inl (Or.inr (Option.some.inj hk).symm)
        · exact Or.inr ⟨g, hg, hk⟩

/-- Specialisation of the key-membership lemma to `classify`. -/
theorem mem_keys_classify (files : List FileInfo) (x : String) :
    x ∈ keys (classify files)
      ↔ ∃ f ∈ files, keptLabel f = some x := by
  have h := mem_keys_classify_aux files [] x
  simpa [classify, keys] using h

/-- The grouping fold adds at most one entry per input file. -/
theorem totalLen_classify_aux (files : List FileInfo)
    (acc : List (String × List FileInfo)) :
    totalLen (files.foldl
      (fun gs f =>
        match keptLabel f with
        | none => gs
        | some l => addToGroups gs l f) acc)
      ≤ totalLen acc + files.length := by
  induction files generalizing acc with
  | nil => simp
  | cons f fs ih =>
    simp only [List.foldl_cons, List.length_cons]
    cases hf : keptLabel f with
    | none =>
      calc totalLen _ ≤ totalLen acc + fs.length := ih acc
        _ ≤ totalLen acc + (fs.length + 1) := by omega
    | some l'' =>
      calc totalLen _ ≤ totalLen (addToGroups acc l'' f) + fs.length := ih _
        _ = totalLen acc + 1 + fs.length := by
            rw [totalLen_addToGroups]
        _ ≤ totalLen acc + (fs.length + 1) := by omega

/-- `classify` groups at most as many entries as there are files. -/
theorem totalLen_classify_le (files : List FileInfo) :
    totalLen (classify files) ≤ files.length := by
  have h := totalLen_classify_aux files []
  simpa [classify, totalLen] using h

/-- Stable insertion produces a permutation. -/
theorem insertByCountDesc_perm (x : String × List FileInfo)
    (l : List (String × List FileInfo)) :
    (insertByCountDesc x l).Perm (x :: l) := by
  induction l with
  | nil => exact List.Perm.refl _
  | cons y ys ih =>
    by_cases h : x.2.length ≤ y.2.length
    · simp only [insertByCountDesc, if_pos h]
      exact (List.Perm.cons y ih).trans (List.Perm.swap x y ys)
    · simp only [insertByCountDesc, if_neg h]
      exact List.Perm.refl _

/-- The sort is a permutation of its input. -/
theorem sortByCountDesc_perm_aux (gs acc : List (String × List FileInfo)) :
    (gs.foldl (fun a x => insertByCountDesc x a) acc).Perm (gs ++ acc) := by
  induction gs generalizing acc with
  | nil => simp
  | cons x gsl ih =>
    simp only [List.foldl_cons, List.cons_append]
    exact (ih _).trans
      ((List.Perm.append_left gsl (insertByCountDesc_perm x acc)).trans
        List.perm_middle)

/-- `sortByCountDesc` permutes the groups. -/
theorem sortByCountDesc_perm (gs : List (String × List FileInfo)) :
    (sortByCountDesc gs).Perm gs := by
  have h := sortByCountDesc_perm_aux gs []
  simpa [sortByCountDesc] using h

/-- Stable insertion preserves descending-count sortedness. -/
theorem pairwise_insertByCountDesc (x : String × List FileInfo)
    (l : List (String × List FileInfo))
    (h : l.Pairwise (fun a b => b.2.length ≤ a.2.length)) :
    (insertByCountDesc x l).Pairwise (fun a b => b.2.length ≤ a.2.length) := by
  induction l with
  | nil => simp [insertByCountDesc]
  | cons y ys ih =>
    rw [List.pairwise_cons] at h
    by_cases hc : x.2.length ≤ y.2.length
    · simp only [insertByCountDesc, if_pos hc]
      rw [List.pairwise_cons]
      refine ⟨?_, ih h.2⟩
      intro z hz
      have hz' : z = x ∨ z ∈ ys := by
        have := (insertByCountDesc_perm x ys).mem_iff.mp hz
        simpa using this
      rcases hz' with rfl | hz'
      · exact hc
      · exact h.1 z hz'
    · simp only [insertByCountDesc, if_neg hc]
      push_neg at hc
      rw [List.pairwise_cons]
      refine ⟨?_, List.pairwise_cons.mpr h⟩
      intro z hz
      rcases List.mem_cons.mp hz with rfl | hz'
      · exact le_of_lt hc
      · exact le_trans (h.1 z hz') (le_of_lt hc)

/-- The fold of stable insertions is sorted by descending count. -/
theorem pairwise_sort_aux (gs acc : List (String × List FileInfo))
    (h : acc.Pairwise (fun a b => b.2.length ≤ a.2.length)) :
    ((gs.foldl (fun a x => insertByCountDesc x a) acc)).Pairwise
      (fun a b => b.2.length ≤ a.2.length) := by
  induction gs generalizing acc with
  | nil => exact h
  | cons x gsl ih =>
    simp only [List.foldl_cons]
    exact ih _ (pairwise_insertByCountDesc x acc h)

/-- `sortByCountDesc` sorts by descending member count. -/
theorem sortByCountDesc_sorted (gs : List (String × List FileInfo)) :
    (sortByCountDesc gs).Pairwise (fun a b => b.2.length ≤ a.2.length) :=
  pairwise_sort_aux gs [] (by simp)

/-- In a descending-sorted list headed by an element of count below `c`,
no element has count `c`. -/
theorem filter_eq_nil_of_head_lt (c : Nat) (y : String × List FileInfo)
    (ys : List (String × List FileInfo))
    (h : (y :: ys).Pairwise (fun a b => b.2.length ≤ a.2.length))
    (hy : y.2.length < c) :
    (y :: ys).filter (fun g => g.2.length = c) = [] := by
  rw [List.pairwise_cons] at h
  rw [List.filter_eq_nil_iff]
  intro a ha
  rcases List.mem_cons.mp ha with rfl | ha'
  · simp only [decide_eq_true_eq]
    omega
  · have := h.1 a ha'
    simp only [decide_eq_true_eq]
    omega

/-- Filtering one count class through a stable insertion into a sorted
list: the new element lands at the class's end. -/
theorem filter_insertByCountDesc (c : Nat) (x : String × List FileInfo)
    (l : List (String × List FileInfo))
    (h : l.Pairwise (fun a b => b.2.length ≤ a.2.length)) :
    (insertByCountDesc x l).filter (fun g => g.2.length = c)
      = if x.2.length = c
        then l.filter (fun g => g.2.length = c) ++ [x]
        else l.filter (fun g => g.2.length = c) := by
  induction l with
  | nil => by_cases hx : x.2.length = c <;> simp [insertByCountDesc, hx]
  | cons y ys ih =>
    have h' := h
    rw [List.pairwise_cons] at h'
    by_cases hc : x.2.length ≤ y.2.length
    · simp only [insertByCountDesc, if_pos hc]
      by_cases hy : y.2.length = c <;> by_cases hx : x.2.length = c <;>
        simp_all [List.filter_cons, ih h'.2]
    · simp only [insertByCountDesc, if_neg hc]
      push_neg at hc
      by_cases hx : x.2.length = c
      · have hnil : (y :: ys).filter (fun g => g.2.length = c) = [] :=
          filter_eq_nil_of_head_lt c y ys h (by omega)
        simp [List.filter_cons, hx, hnil]
      · simp [List.filter_cons, hx]

/-- Filtering one count class commutes with the whole sort fold: stable
insertion keeps each count class in arrival order. -/
theorem filter_sort_aux (gs acc : List (String × List FileInfo))
    (h : acc.Pairwise (fun a b => b.2.length ≤ a.2.length)) (c : Nat) :
    (gs.foldl (fun a x => insertByCountDesc x a) acc).filter
        (fun g => g.2.length = c)
      = acc.filter (fun g => g.2.length = c)
        ++ gs.filter (fun g => g.2.length = c) := by
  induction gs generalizing acc with
  | nil => simp
  | cons x gsl ih =>
    simp only [List.foldl_cons]
    rw [ih _ (pairwise_insertByCountDesc x acc h)]
    rw [filter_insertByCountDesc c x acc h]
    by_cases hx : x.2.length = c <;> simp [List.filter_cons, hx]

/-- Equal-count groups keep their pre-sort relative order (stability). -/
theorem filter_sortByCountDesc (gs : List (String × List FileInfo))
    (c : Nat) :
    (sortByCountDesc gs).filter (fun g => g.2.length = c)
      = gs.filter (fun g => g.2.length = c) := by
  have h := filter_sort_aux gs [] (by simp) c
  simpa [sortByCountDesc] using h

/-- With duplicate-free keys, the members of a label are invariant
under permutation of the groups. -/
theorem members_perm_of_nodup (lab : String)
    {gs gs' : List (String × List FileInfo)} (h : gs.Perm gs')
    (hnd : (keys gs).Nodup) : members lab gs = members lab gs' := by
  induction h with
  | nil => rfl
  | cons x h ih =>
    obtain ⟨k, fs⟩ := x
    simp only [keys, List.map_cons, List.nodup_cons] at hnd
    simp [members, ih hnd.2]
  | swap x y l =>
    obtain ⟨k1, f1⟩ := x
    obtain ⟨k2, f2⟩ := y
    simp only [keys, List.map_cons, List.nodup_cons, List.mem_cons] at hnd
    by_cases h1 : k1 = lab <;> by_cases h2 : k2 = lab <;>
      simp_all [members]
  | trans h1 h2 ih1 ih2 =>
    have hnd2 := ((h1.map Prod.fst).nodup_iff).mp hnd
    rw [ih1 hnd, ih2 hnd2]

/-- The ordered-group presentation of `get_available_formats` has the
same members per label as the raw grouping. -/
theorem members_get_available_formats (files : List FileInfo)
    (lab : String) :
    members lab (get_available_formats files)
      = files.filter (fun f => keptLabel f = some lab) := by
  have hperm := sortByCountDesc_perm (classify files)
  have hnd := nodup_keys_classify files
  have hnds : (keys (sortByCountDesc (classify files))).Nodup :=
    ((hperm.map Prod.fst).nodup_iff).mpr hnd
  rw [get_available_formats, members_perm_of_nodup lab hperm hnds,
    members_classify]

/-- The number of presented groups depends only on the multiset of
files. -/
theorem length_classify_eq_of_perm (files files' : List FileInfo)
    (h : files.Perm files') :
    (classify files).length = (classify files').length := by
  have n1 := nodup_keys_classify files
  have n2 := nodup_keys_classify files'
  have hm : ∀ x, x ∈ keys (classify files) ↔ x ∈ keys (classify files') := by
    intro x
    rw [mem_keys_classify, mem_keys_classify]
    constructor
    · rintro ⟨f, hf, hk⟩
      exact ⟨f, h.mem_iff.mp hf, hk⟩
    · rintro ⟨f, hf, hk⟩
      exact ⟨f, h.mem_iff.mpr hf, hk⟩
  have e1 : (keys (classify files)).toFinset
      = (keys (classify files')).toFinset := by
    ext x
    simp only [List.mem_toFinset]
    exact hm x
  have c1 := List.toFinset_card_of_nodup n1
  have c2 := List.toFinset_card_of_nodup n2
  calc (classify files).length
      = (keys (classify files)).length := (List.length_map _ _).symm
    _ = (keys (classify files)).toFinset.card := c1.symm
    _ = (keys (classify files')).toFinset.card := by rw [e1]
    _ = (keys (classify files')).length := c2
    _ = (classify files').length := List.length_map _ _

/-- `detailsFollower` finds exactly the segment after the first
`"details"` segment. -/
theorem detailsFollower_eq_some_iff (l : List String) (x : String) :
    detailsFollower l = some x
      ↔ ∃ pre post, l = pre ++ "details" :: x :: post
          ∧ "details" ∉ pre := by
  induction l with
  | nil => simp [detailsFollower]
  | cons a rest ih =>
    by_cases h : a = "details"
    · subst h
      simp only [detailsFollower, if_pos rfl]
      constructor
      · intro hh
        cases rest with
        | nil => cases hh
        | cons b t =>
          have hb : b = x := by simpa using hh
          subst hb
          exact ⟨[], t, rfl, by simp⟩
      · rintro ⟨pre, post, heq, hpre⟩
        cases pre with
        | nil =>
          simp only [List.nil_append, List.cons.injEq] at heq
          rw [heq.2]
          rfl
        | cons p pre' =>
          simp only [List.cons_append, List.cons.injEq] at heq
          exact absurd (by simp [heq.1]) hpre
    · simp only [detailsFollower, if_neg h]
      rw [ih]
      constructor
      · rintro ⟨pre, post, heq, hpre⟩
        refine ⟨a :: pre, post, by simp [heq], ?_⟩
        simp only [List.mem_cons, not_or]
        exact ⟨fun he => h he.symm, hpre⟩
      · rintro ⟨pre, post, heq, hpre⟩
        cases pre with
        | nil =>
          simp only [List.nil_append, List.cons.injEq] at heq
          exact absurd heq.1 h
        | cons p pre' =>
          simp only [List.cons_append, List.cons.injEq] at heq
          simp only [List.mem_cons, not_or] at hpre
          exact ⟨pre', post, heq.2, hpre.2⟩

end ArchiveTG.ArchiveOrgHandler

namespace ArchiveTG

open ArchiveTG.ArchiveOrgHandler

/-- C5 counterexample: two files `a.mp3` and `b.flac` produce two
singleton groups presented as `["MP3", "FLAC"]` — but the table places
FLAC before MP3, so the spec's table-order tie-break does not hold. -/
theorem C5_counterexample :
    tableTieBreakOrdered (get_available_formats
        [⟨"a.mp3", 2000⟩, ⟨"b.flac", 2000⟩]) = false
    ∧ keys (get_available_formats [⟨"a.mp3", 2000⟩, ⟨"b.flac", 2000⟩])
        = ["MP3", "FLAC"]
    ∧ tableIdx "FLAC" < tableIdx "MP3"
    ∧ (get_available_formats [⟨"a.mp3", 2000⟩, ⟨"b.flac", 2000⟩]).map
        (fun g => g.2.length) = [1, 1] := by
  refine ⟨by decide, by decide, by decide, by decide⟩

/-- C5 (amended): `get_available_formats` presents the groups sorted by
descending member count, and groups of equal count keep the relative
order in which their labels first received a file (the stable-sort /
dict-insertion order), not the extension-table order. -/
theorem C5_sorted_stable (files : List FileInfo) :
    List.Pairwise (fun a b => b.2.length ≤ a.2.length)
      (get_available_formats files)
    ∧ ∀ c : Nat,
      (get_available_formats files).filter (fun g => g.2.length = c)
        = (classify files).filter (fun g => g.2.length = c) := by
  constructor
  · exact sortByCountDesc_sorted (classify files)
  · intro c
    exact filter_sortByCountDesc (classify files) c

/-- C6 counterexample: permuting two same-format files permutes the
group's internal order, so the classification result is not literally
identical across input permutations. -/
theorem C6_counterexample :
    ([⟨"b.flac", 2000⟩, ⟨"a.flac", 2000⟩] : List FileInfo).Perm
        [⟨"a.flac", 2000⟩, ⟨"b.flac", 2000⟩]
    ∧ get_available_formats [⟨"b.flac", 2000⟩, ⟨"a.flac", 2000⟩]
        ≠ get_available_formats [⟨"a.flac", 2000⟩, ⟨"b.flac", 2000⟩] := by
  constructor
  · exact List.Perm.swap (⟨"a.flac", 2000⟩ : FileInfo) ⟨"b.flac", 2000⟩ []
  · decide

/-- C6 (amended): under any permutation of the input file list the
classification yields the same number of groups (one per distinct kept
label, labels duplicate-free), the same members per label up to
permutation, and the grouped entries total at most the number of files;
each group's internal order is exactly the input order of its files
(`members lab = files.filter ...`), so it follows any permutation of
the input rather than being invariant. -/
theorem C6_perm_invariants (files files' : List FileInfo)
    (h : files.Perm files') :
    (get_available_formats files).length
        = (get_available_formats files').length
    ∧ (keys (get_available_formats files)).Nodup
    ∧ (∀ lab, members lab (get_available_formats files)
        = files.filter (fun f => keptLabel f = some lab))
    ∧ (∀ lab, (members lab (get_available_formats files)).Perm
        (members lab (get_available_formats files')))
    ∧ totalLen (get_available_formats files) ≤ files.length := by
  have hperm := sortByCountDesc_perm (classify files)
  have hperm' := sortByCountDesc_perm (classify files')
  refine ⟨?_, ?_, ?_, ?_, ?_⟩
  · calc (get_available_formats files).length
        = (classify files).length := hperm.length_eq
      _ = (classify files').length := length_classify_eq_of_perm _ _ h
      _ = (get_available_formats files').length := hperm'.length_eq.symm
  · exact ((hperm.map Prod.fst).nodup_iff).mpr (nodup_keys_classify files)
  · exact members_get_available_formats files
  · intro lab
    rw [members_get_available_formats files lab,
      members_get_available_formats files' lab]
    exact h.filter _
  · have he : totalLen (get_available_formats files)
        = totalLen (classify files) :=
      List.Perm.sum_eq (hperm.map (fun g => g.2.length))
    rw [he]
    exact totalLen_classify_le files

/-- C6 witness: the permutation invariants at a concrete two-file
swap. -/
theorem C6_witness :
    (get_available_formats
        [(⟨"b.flac", 2000⟩ : FileInfo), ⟨"a.flac", 2000⟩]).length
      = (get_available_formats
        [(⟨"a.flac", 2000⟩ : FileInfo), ⟨"b.flac", 2000⟩]).length
    ∧ (members "FLAC" (get_available_formats
        [(⟨"b.flac", 2000⟩ : FileInfo), ⟨"a.flac", 2000⟩])).Perm
        (members "FLAC" (get_available_formats
        [(⟨"a.flac", 2000⟩ : FileInfo), ⟨"b.flac", 2000⟩])) := by
  have h := C6_perm_invariants [⟨"b.flac", 2000⟩, ⟨"a.flac", 2000⟩]
    [⟨"a.flac", 2000⟩, ⟨"b.flac", 2000⟩]
    (List.Perm.swap (⟨"a.flac", 2000⟩ : FileInfo) ⟨"b.flac", 2000⟩ [])
  exact ⟨h.1, h.2.2.2.1 "FLAC"⟩

/-- C7: a file whose name carries a known non-payload suffix or whose
size is below 1024 bytes lands in no group; on the spec's example item
the FLAC group holds exactly the 40 MB track and the metadata XML
appears nowhere. -/
theorem C7_skip_rules :
    (∀ (files : List FileInfo) (f : FileInfo), f ∈ files →
      (skipName f.name = true ∨ f.size < 1024) →
      ∀ lab, f ∉ members lab (get_available_formats files))
    ∧ get_available_formats
        [⟨"01 Track.flac", 40000000⟩, ⟨"cover.jpg", 50000⟩,
         ⟨"item_meta.xml", 500⟩]
      = [("FLAC", [⟨"01 Track.flac", 40000000⟩]),
         ("JPG", [⟨"cover.jpg", 50000⟩])] := by
  constructor
  · intro files f hmem hskip lab hcon
    rw [members_get_available_formats files lab] at hcon
    have hk : keptLabel f = some lab := by
      have := (List.mem_filter.mp hcon).2
      exact of_decide_eq_true this
    have hnone : keptLabel f = none := by
      unfold keptLabel
      split_ifs with h1 h2 h3
      · rfl
      · rfl
      · rfl
      · rcases hskip with hs | hs
        · exact absurd hs (by simpa using h2)
        · exact absurd hs h3
    rw [hnone] at hk
    cases hk
  · decide

/-- C7 witness: the skip rule applied to the example's metadata XML
file and the FLAC group. -/
theorem C7_witness :
    (⟨"item_meta.xml", 500⟩ : FileInfo) ∉ members "FLAC"
      (get_available_formats
        [⟨"01 Track.flac", 40000000⟩, ⟨"cover.jpg", 50000⟩,
         ⟨"item_meta.xml", 500⟩]) :=
  C7_skip_rules.1 _ _ (by decide) (Or.inl (by decide)) "FLAC"

/-- C8: identifier resolution returns the segment after the first
`details` segment when one exists, the whole (stripped) path when it is
a single non-empty segment, `none` for any other path shape, and `none`
when URL parsing itself fails — without raising. -/
theorem C8_extract_identifier :
    (∀ (path : String) (pre : List String) (x : String) (post : List String),
      pathParts path = pre ++ "details" :: x :: post → "details" ∉ pre →
      extract_identifier (some path) = some x)
    ∧ (∀ path p : String,
      pathParts path = [p] → p ≠ "" →
      extract_identifier (some path) = some p)
    ∧ (∀ path : String,
      (∀ (pre : List String) (x : String) (post : List String),
        pathParts path ≠ pre ++ "details" :: x :: post) →
      (∀ p : String, pathParts path = [p] → p = "") →
      extract_identifier (some path) = none)
    ∧ extract_identifier none = none := by
  refine ⟨?_, ?_, ?_, rfl⟩
  · intro path pre x post heq hpre
    have hdf : detailsFollower (pathParts path) = some x :=
      (detailsFollower_eq_some_iff _ x).mpr ⟨pre, post, heq, hpre⟩
    simp [extract_identifier, extract_identifier_path, hdf]
  · intro path p heq hne
    have hdf : detailsFollower (pathParts path) = none := by
      cases hd : detailsFollower (pathParts path) with
      | none => rfl
      | some x =>
        rcases (detailsFollower_eq_some_iff _ x).mp hd with ⟨pre, post, hq, _⟩
        rw [heq] at hq
        have hlen := congrArg List.length hq
        simp [List.length_append] at hlen
        omega
    rw [heq] at hdf
    simp [extract_identifier, extract_identifier_path, hdf, heq, hne]
  · intro path hnodec hsingle
    have hdf : detailsFollower (pathParts path) = none := by
      cases hd : detailsFollower (pathParts path) with
      | none => rfl
      | some x =>
        rcases (detailsFollower_eq_some_iff _ x).mp hd with ⟨pre, post, hq, _⟩
        exact absurd hq (hnodec pre x post)
    cases hp : pathParts path with
    | nil =>
      rw [hp] at hdf
      simp [extract_identifier, extract_identifier_path, hdf, hp]
    | cons p rest =>
      cases rest with
      | nil =>
        have hp0 := hsingle p hp
        rw [hp] at hdf
        subst hp0
        simp [extract_identifier, extract_identifier_path, hdf, hp]
      | cons q t =>
        rw [hp] at hdf
        simp [extract_identifier, extract_identifier_path, hdf, hp]

/-- C8 witness: `/details/abc123/` resolves to `abc123`; the bare
single-segment path `/abc123` also resolves; `/a/b` does not. -/
theorem C8_witness :
    extract_identifier (some "/details/abc123/") = some "abc123"
    ∧ extract_identifier (some "/abc123") = some "abc123"
    ∧ extract_identifier (some "/a/b") = none := by
  refine ⟨?_, ?_, ?_⟩
  · exact C8_extract_identifier.1 "/details/abc123/" [] "abc123" []
      (by decide) (by decide)
  · exact C8_extract_identifier.2.1 "/abc123" "abc123" (by decide)
      (by decide)
  · refine C8_extract_identifier.2.2.1 "/a/b" ?_ ?_
    · intro pre x post hq
      have hmem : "details" ∈ pathParts "/a/b" := by
        rw [hq]
        simp
      exact absurd hmem (by decide)
    · intro p h
      rw [show pathParts "/a/b" = ["a", "b"] from by decide] at h
      simp at h

/-- C4 witness: a PNG-signature cover through the FLAC upload-embedding
path gets MIME `image/png` and its exact bytes; a JPEG-signature cover
through the MP3 upload path gets `image/jpeg`; the same PNG-signature
cover through bot.py's MP3 and OGG paths gets the hard-coded
`image/jpeg`. -/
theorem C4_witness :
    (TelegramChannelHandler.upload_embed_flac ⟨[("vendor", "x")], []⟩
        ⟨none, none, none, some [0x89, 0x50, 0x4E, 0x47]⟩).pictures.getLast?
      = some ⟨[0x89, 0x50, 0x4E, 0x47], 3, "image/png"⟩
    ∧ (∃ t', TelegramChannelHandler.upload_embed_mp3 (.ok ⟨[]⟩) true
          ⟨none, none, none, some [0xFF, 0xD8]⟩ = some t'
        ∧ getFrame t' "APIC:Cover"
          = some (.APIC "image/jpeg" 3 "Cover" [0xFF, 0xD8]))
    ∧ (∃ t', ArchiveTelegramBot.add_metadata_to_audio [1]
          ⟨"t.mp3", none, none, none⟩ ⟨none, none, none, none⟩
          (some [0x89, 0x50, 0x4E, 0x47]) "1" "MP3"
          ⟨.ok ⟨[]⟩, none, none, none, true⟩
        = .ok (.mp3 [1] t', [ArchiveTelegramBot.tagInfoLog])
        ∧ getFrame t' "APIC:Cover"
          = some (.APIC "image/jpeg" 3 "Cover" [0x89, 0x50, 0x4E, 0x47]))
    ∧ (∃ f', ArchiveTelegramBot.add_metadata_to_audio [1]
          ⟨"t.ogg", none, none, none⟩ ⟨none, none, none, none⟩
          (some [0x89, 0x50, 0x4E, 0x47]) "1" "OGG"
          ⟨.noHeader, none, some ⟨[], none⟩, none, true⟩
        = .ok (.ogg [1] f', [ArchiveTelegramBot.tagInfoLog])
        ∧ f'.metadata_block_picture
          = some ⟨[0x89, 0x50, 0x4E, 0x47], 3, "image/jpeg"⟩) := by
  refine ⟨?_, ?_, ?_, ?_⟩
  · exact C4_cover_mime.1 ⟨[("vendor", "x")], []⟩
      ⟨none, none, none, some [0x89, 0x50, 0x4E, 0x47]⟩
      [0x89, 0x50, 0x4E, 0x47] rfl (by decide) (by decide)
  · exact C4_cover_mime.2.1 ⟨[]⟩
      ⟨none, none, none, some [0xFF, 0xD8]⟩ [0xFF, 0xD8] rfl (by decide)
  · exact C4_cover_mime.2.2.2.2.1 [1] ⟨"t.mp3", none, none, none⟩
      ⟨none, none, none, none⟩ [0x89, 0x50, 0x4E, 0x47] "1"
      ⟨.ok ⟨[]⟩, none, none, none, true⟩ (by decide) rfl (by decide)
  · exact C4_cover_mime.2.2.2.2.2 [1] ⟨"t.ogg", none, none, none⟩
      ⟨none, none, none, none⟩ [0x89, 0x50, 0x4E, 0x47] "1"
      ⟨.noHeader, none, some ⟨[], none⟩, none, true⟩ ⟨[], none⟩
      (by decide) rfl rfl

end ArchiveTG
